import Mathlib

/-!
Verification of the PyOFS gridded-dataset access and raster-export engine
(`src/dataset/hfr.py`, `src/dataset/rtofs.py`) against its specification.

Times are modelled as whole minutes since an epoch (`Nat`); one hour is 60
minutes and one day is 1440 minutes.  Floating-point cell values are modelled
as `Option ℝ`, with `none` standing for IEEE NaN (the datasets' missing
value), and grid arithmetic that the claims evaluate on concrete inputs is
modelled over `ℚ`.
-/

/-- Modelled from the spec: `_utilities.round_to_hour` is not under `src/`.
The spec says both interval endpoints are rounded to the nearest hour before
enumeration.  Minutes at or past the half hour round up. -/
def roundToHour (t : Nat) : Nat := ((t + 30) / 60) * 60

/-- Modelled from the spec: `_utilities.hour_range` is not under `src/`.
The spec says every hourly timestamp between the rounded endpoints is
enumerated; a zero-length interval yields a single timestamp, so the upper
endpoint is inclusive. -/
def hourRange (s e : Nat) : List Nat :=
  if s ≤ e then (List.range ((e - s) / 60 + 1)).map (fun k => s + 60 * k) else []

/-- Embeds `HFR_Range.get_datetime_indices` (src/dataset/hfr.py lines 97-122):
the hourly range between the rounded endpoints is built, the indices of axis
timestamps that are exact members of that range are collected
(`numpy.where(numpy.in1d(self.datetimes, hourly_range))`), and an empty index
set is turned into the no-data signal `None`. -/
def get_datetime_indices (datetimes : List Nat) (startDt endDt : Nat) :
    Option (List Nat) :=
  let hourly := hourRange (roundToHour startDt) (roundToHour endDt)
  let idxs := (List.range datetimes.length).filter
    (fun i => decide (datetimes.getD i 0 ∈ hourly))
  if idxs.length = 0 then none else some idxs

/-- Forecast or nowcast sub-dataset of an RTOFS model run. -/
inductive ForecastDirection
  | nowcast
  | forecast
deriving DecidableEq

/-- Embeds `time.replace(hour=0, minute=0, second=0, microsecond=0)`:
truncation of a time to the midnight that begins its day. -/
def truncToDay (t : Nat) : Nat := (t / 1440) * 1440

/-- Embeds the direction selection of `RTOFS_Dataset.data`
(src/dataset/rtofs.py lines 159-162): forecast when the query time is at or
after the model run time, nowcast otherwise.  The model run time is already a
midnight (`__init__` truncates it). -/
def rtofsDataDirection (modelDatetime t : Nat) : ForecastDirection :=
  if modelDatetime ≤ t then .forecast else .nowcast

/-- Embeds the direction selection of `RTOFS_Dataset.write_rasters`
(src/dataset/rtofs.py lines 225-229): the query time is first truncated to
midnight, the whole-day delta from the model run time is computed with
truncating integer conversion, and the direction is forecast exactly when the
delta is nonnegative. -/
def rtofsWriteRastersDirection (modelDatetime t : Nat) : ForecastDirection :=
  let tTrunc := truncToDay t
  let timeDelta : Int := Int.tdiv ((tTrunc : Int) - (modelDatetime : Int)) 1440
  if 0 ≤ timeDelta then .forecast else .nowcast

/-- Embeds `numpy.arctan2 y x`: the angle of the point `(x, y)`, following the
numpy/IEEE piecewise definition in terms of the principal arctangent. -/
noncomputable def arctan2 (y x : ℝ) : ℝ :=
  if 0 < x then Real.arctan (y / x)
  else if x < 0 then
    (if 0 ≤ y then Real.arctan (y / x) + Real.pi
     else Real.arctan (y / x) - Real.pi)
  else if 0 < y then Real.pi / 2
  else if y < 0 then -(Real.pi / 2)
  else 0

/-- A floating-point cell value: `none` models IEEE NaN, the missing-value
sentinel of the HFR and RTOFS arrays. -/
def FloatCell : Type := Option ℝ

/-- Lifts a binary real operation to cells; NaN in either operand propagates,
as every IEEE arithmetic operation used by the source does. -/
def fBin (f : ℝ → ℝ → ℝ) : FloatCell → FloatCell → FloatCell
  | some a, some b => some (f a b)
  | _, _ => none

/-- Lifts a unary real operation to cells, propagating NaN. -/
def fUn (f : ℝ → ℝ) : FloatCell → FloatCell
  | some a => some (f a)
  | none => none

/-- Embeds the derived direction cell
`(numpy.arctan2(u_data, v_data) + numpy.pi) * (180 / numpy.pi)`
(src/dataset/hfr.py line 403 and src/dataset/rtofs.py line 252), composed
from the lifted IEEE operations exactly as the source expression is.  Note
the argument order: `u` is the first (y) argument of `arctan2`. -/
noncomputable def dirCell (u v : FloatCell) : FloatCell :=
  fBin (fun a b => a * b)
    (fBin (fun a b => a + b) (fBin arctan2 u v) (some Real.pi))
    (some (180 / Real.pi))

/-- Embeds the derived magnitude cell
`numpy.sqrt(numpy.square(u_data) + numpy.square(v_data))`
(src/dataset/hfr.py line 404 and src/dataset/rtofs.py line 253). -/
noncomputable def magCell (u v : FloatCell) : FloatCell :=
  fUn Real.sqrt
    (fBin (fun a b => a + b) (fUn (fun a => a * a) u) (fUn (fun a => a * a) v))

/-- Embeds `numpy.diff`: consecutive differences of a coordinate array. -/
def diffs (xs : List ℚ) : List ℚ := List.zipWith (fun a b => b - a) xs xs.tail

/-- Embeds `numpy.mean(numpy.diff(xs))`, the mean coordinate spacing used for
`HFR_Range.x_size` and `y_size` (src/dataset/hfr.py lines 91-92). -/
def meanDiff (xs : List ℚ) : ℚ := (diffs xs).sum / (diffs xs).length

/-- Embeds `rasterio.transform.from_origin(west, north, xsize, ysize)`: the
affine transform anchored at the grid's north-west origin. -/
structure GridTransform where
  west : ℚ
  north : ℚ
  xsize : ℚ
  ysize : ℚ
deriving DecidableEq

/-- The data an `HFR_Range` instance exposes to the AAIGrid export path: the
full (uncropped) coordinate arrays of the dataset, and the dataset's
geospatial bounds attributes returned by `HFR_Range.bounds`
(src/dataset/hfr.py lines 124-132). -/
structure HfrGrid where
  lons : List ℚ
  lats : List ℚ
  boundsWest : ℚ
  boundsNorth : ℚ
  boundsEast : ℚ
  boundsSouth : ℚ
deriving DecidableEq

/-- Embeds `HFR_Range.cell_size` (src/dataset/hfr.py lines 134-141): the
absolute mean spacings of the full longitude and latitude arrays. -/
def cellSize (g : HfrGrid) : ℚ × ℚ := (|meanDiff g.lons|, |meanDiff g.lats|)

/-- Embeds `mean_cell_length = numpy.min(self.cell_size())`
(src/dataset/hfr.py line 419). -/
def meanCellLength (g : HfrGrid) : ℚ := min (cellSize g).1 (cellSize g).2

/-- Ceiling of a rational, written with explicitly computable integer
division so that concrete grids evaluate inside `decide`. -/
def ratCeil (q : ℚ) : Int := -((-q).num / ((-q).den : Int))

/-- Length of `numpy.arange(start, stop, step)` for a positive step:
`ceil((stop - start) / step)` clamped at zero. -/
def arangeLen (start stop step : ℚ) : Nat :=
  if 0 < step then (ratCeil ((stop - start) / step)).toNat else 0

/-- Embeds `numpy.arange(start, stop, step)`. -/
def arange (start stop step : ℚ) : List ℚ :=
  (List.range (arangeLen start stop step)).map
    (fun k : Nat => start + (k : ℚ) * step)

/-- Embeds the flattened `numpy.meshgrid` of the full coordinate arrays
(src/dataset/hfr.py line 423), row-major with latitude as the row axis, as
the list of (lon, lat) input points handed to `scipy.interpolate.griddata`. -/
def gridPoints (g : HfrGrid) : List (ℚ × ℚ) :=
  (g.lats.map (fun la => g.lons.map (fun lo => (lo, la)))).flatten

/-- Squared Euclidean distance between two points. -/
def sqDist (p q : ℚ × ℚ) : ℚ := (p.1 - q.1) ^ 2 + (p.2 - q.2) ^ 2

/-- A nearest input point to the query point (first wins on ties). -/
def nearestPoint (ps : List (ℚ × ℚ)) (q : ℚ × ℚ) : ℚ × ℚ :=
  ps.foldl (fun best p => if sqDist p q < sqDist best q then p else best)
    (ps.headD (0, 0))

/-- Embeds `scipy.interpolate.griddata(points, values, query, method='nearest',
fill_value=...)` (src/dataset/hfr.py lines 427-430).  Per the scipy contract
the `fill_value` argument has no effect for the `'nearest'` method: every
query point, inside or outside the convex hull of the inputs, receives the
value of the nearest input point. -/
def griddataNearest (ps : List (ℚ × ℚ)) (val : ℚ × ℚ → ℚ) (q : ℚ × ℚ) : ℚ :=
  val (nearestPoint ps q)

/-- Embeds `output_lon = numpy.arange(west, east, mean_cell_length)`
(src/dataset/hfr.py line 424), over the dataset's full bounds. -/
def outputLons (g : HfrGrid) : List ℚ :=
  arange g.boundsWest g.boundsEast (meanCellLength g)

/-- Embeds `output_lat = numpy.arange(south, north, mean_cell_length)`
(src/dataset/hfr.py line 425). -/
def outputLats (g : HfrGrid) : List ℚ :=
  arange g.boundsSouth g.boundsNorth (meanCellLength g)

/-- Value of the regridded AAIGrid raster at output row `r`, column `c`
(src/dataset/hfr.py lines 427-430): nearest-neighbour interpolation of the
source field at the uniform output grid point. -/
def aaigridValue (g : HfrGrid) (val : ℚ × ℚ → ℚ) (r c : Nat) : ℚ :=
  griddataNearest (gridPoints g) val
    ((outputLons g).getD c 0, (outputLats g).getD r 0)

/-- Embeds `numpy.min` over a nonempty coordinate list. -/
def minList (xs : List ℚ) : ℚ := xs.foldl min (xs.headD 0)

/-- Embeds `numpy.max` over a nonempty coordinate list. -/
def maxList (xs : List ℚ) : ℚ := xs.foldl max (xs.headD 0)

/-- Embeds the transform written for the AAIGrid export
(src/dataset/hfr.py lines 433-437):
`rasterio.transform.from_origin(numpy.min(output_lon), numpy.max(output_lat),
numpy.max(numpy.diff(output_lon)), numpy.max(numpy.diff(output_lon)))`.
Both cell dimensions are taken from the x diffs, so the written cells are
square by construction. -/
def aaigridTransform (g : HfrGrid) : GridTransform :=
  { west := minList (outputLons g)
    north := maxList (outputLats g)
    xsize := maxList (diffs (outputLons g))
    ysize := maxList (diffs (outputLons g)) }

/-- Embeds the driver dispatch of the raster write loops
(src/dataset/hfr.py lines 416-441 and src/dataset/rtofs.py lines 274-280):
the file extension chosen for each recognized GDAL driver name; any other
driver name makes `rasterio.open` raise. -/
def driverExtension (driver : String) : Option String :=
  if driver = "AAIGrid" then some "asc"
  else if driver = "GTiff" then some "tiff"
  else if driver = "GPKG" then some "gpkg"
  else none

/-- Embeds the output filename
`f'{filename_prefix}_{variable}{filename_suffix}.{file_extension}'`
of `HFR_Range.write_rasters` (src/dataset/hfr.py lines 443-444). -/
def rasterFilename (pre varName suf ext : String) : String :=
  pre ++ "_" ++ varName ++ suf ++ "." ++ ext

/-- Embeds the per-driver write loop of `HFR_Range.write_rasters`
(src/dataset/hfr.py lines 415-448; the loop of `RTOFS_Dataset.write_rasters`,
lines 273-286, has the same shape): the drivers are processed in order with
no exception handling, each recognized driver writes its own file, and an
unrecognized driver name makes `rasterio.open` raise, which aborts the loop.
Returns the files written and whether the loop ran to completion. -/
def writeDriverLoop (pre varName suf : String) :
    List String → List String × Bool
  | [] => ([], true)
  | d :: rest =>
    match driverExtension d with
    | some ext =>
      let r := writeDriverLoop pre varName suf rest
      (rasterFilename pre varName suf ext :: r.1, r.2)
    | none => ([], false)

/-- Embeds one cell of
`numpy.mean(self.data[variable][datetime_indices, :, :], axis=0)`
(src/dataset/hfr.py lines 293 and 382): the arithmetic mean of the cell's
values over the resolved time indices. -/
def seqMean (cell : Nat → ℚ) (idxs : List Nat) : ℚ :=
  (idxs.map cell).sum / idxs.length

/-- Embeds the `concurrent.futures.as_completed` collection loop of
`HFR_Range.write_rasters` and `write_vector` (src/dataset/hfr.py lines
380-389 and 291-298): one averaging task per variable, results stored into
the dictionary keyed by variable name in task-completion order, modelled as
an explicit completion order over the variable names. -/
def collectMeans (cells : String → Nat → ℚ) (idxs : List Nat)
    (order : List String) : String → Option ℚ :=
  order.foldl
    (fun acc v => Function.update acc v (some (seqMean (cells v) idxs)))
    (fun _ => none)

/-- Embeds `DATASET_STRUCTURE` (src/dataset/rtofs.py lines 32-47): the
sub-dataset names per source and forecast direction. -/
def datasetStructureNames (source : String) (d : ForecastDirection) :
    List String :=
  if source = "2ds" then
    match d with
    | .nowcast => ["prog", "diag"]
    | .forecast => ["prog", "diag"]
  else if source = "3dz" then
    match d with
    | .nowcast => ["salt", "temp", "uvel", "vvel"]
    | .forecast => ["salt", "temp", "uvel", "vvel"]
  else []

/-- Embeds the key set of `DATA_VARIABLES` (src/dataset/rtofs.py lines
49-57): the variable names `data` accepts. -/
def dataVariableNames : List String :=
  ["salt", "temp", "u", "v", "ssh", "ice_coverage", "ice_thickness"]

/-- State of a successfully constructed `RTOFS_Dataset`: its source, the
model run midnight, and the sub-dataset handles that opened per direction
(`self.netcdf_datasets`, populated in src/dataset/rtofs.py lines 101-118). -/
structure RtofsState where
  source : String
  modelDatetime : Nat
  nowcastHandles : List String
  forecastHandles : List String
deriving DecidableEq

/-- Outcome of `RTOFS_Dataset.__init__`: a constructed state, or the
`NoDataError` raised when no sub-dataset opened (src/dataset/rtofs.py lines
120-147). -/
inductive ConstructOutcome
  | ok (st : RtofsState)
  | noDataError
deriving DecidableEq

/-- Embeds the daily-interval construction path of `RTOFS_Dataset.__init__`
(src/dataset/rtofs.py lines 82, 101-147): the model date is truncated to
midnight, each sub-dataset of each direction is attempted (`opens` says which
URLs open successfully; failures are printed and skipped), and `NoDataError`
is raised exactly when the two handle dictionaries are both empty. -/
def rtofsInit (source : String) (modelDate : Nat)
    (opens : ForecastDirection → String → Bool) : ConstructOutcome :=
  let modelDatetime := truncToDay modelDate
  let nowcast := (datasetStructureNames source .nowcast).filter (opens .nowcast)
  let forecast :=
    (datasetStructureNames source .forecast).filter (opens .forecast)
  if 0 < nowcast.length + forecast.length then
    .ok ⟨source, modelDatetime, nowcast, forecast⟩
  else .noDataError

/-- Handles of one direction of a constructed `RTOFS_Dataset`. -/
def rtofsHandles (st : RtofsState) : ForecastDirection → List String
  | .nowcast => st.nowcastHandles
  | .forecast => st.forecastHandles

/-- Observable outcome of `RTOFS_Dataset.data` (src/dataset/rtofs.py lines
149-199): a data array, the silent `None` return after printing that the
direction has no data, or one of the two `ValueError`s. -/
inductive DataOutcome
  | okData
  | noneReturned
  | valueErrorVariable
  | valueErrorDirection
deriving DecidableEq

/-- Embeds the control flow of `RTOFS_Dataset.data` (src/dataset/rtofs.py
lines 159-199): the direction is selected by comparing the query time with
the model run time; if the direction key exists in `DATASET_STRUCTURE` and
that direction has at least one open handle, an unknown variable name raises
`ValueError`, otherwise the slice is read and returned; a direction with no
open handles prints a message and falls through to return `None`. -/
def rtofsData (st : RtofsState) (varName : String) (t : Nat) : DataOutcome :=
  let direction := rtofsDataDirection st.modelDatetime t
  if direction ∈ [ForecastDirection.nowcast, ForecastDirection.forecast] then
    if 0 < (rtofsHandles st direction).length then
      if varName ∈ dataVariableNames then .okData else .valueErrorVariable
    else .noneReturned
  else .valueErrorDirection

/-- Extent tag of the array slice produced by `RTOFS_Dataset.data`
(src/dataset/rtofs.py lines 177-190): the `crop` branch slices to the study
area's bounds, the other branch concatenates the western and eastern halves
of the full global grid. -/
inductive ArrayExtent
  | croppedToStudyArea
  | globalExtent
deriving DecidableEq

/-- The two transforms a constructed `RTOFS_Dataset` owns
(src/dataset/rtofs.py lines 138-145). -/
structure RtofsTransforms where
  studyAreaTransform : GridTransform
  globalGridTransform : GridTransform
deriving DecidableEq

/-- Embeds the extent of the slice returned by `RTOFS_Dataset.data` for a
given `crop` flag (src/dataset/rtofs.py lines 177-190). -/
def rtofsDataExtent (crop : Bool) : ArrayExtent :=
  if crop then .croppedToStudyArea else .globalExtent

/-- Embeds the transform choice of `RTOFS_Dataset.write_rasters`
(src/dataset/rtofs.py lines 258-261). -/
def writeRastersTransform (tr : RtofsTransforms) (crop : Bool) :
    GridTransform :=
  if crop then tr.studyAreaTransform else tr.globalGridTransform

/-- Embeds the pairing performed by `RTOFS_Dataset.write_rasters`: the array
comes from `self.data(variable, time, crop)` (line 235) and the transform
from the `crop` branch at lines 258-261, both driven by the same flag. -/
def writeRastersPair (tr : RtofsTransforms) (crop : Bool) :
    ArrayExtent × GridTransform :=
  (rtofsDataExtent crop, writeRastersTransform tr crop)

/-- Embeds the transform choice of `RTOFS_Dataset.write_raster`
(src/dataset/rtofs.py lines 303-307), paired with the array from
`self.data(variable, time, crop)` at line 301. -/
def writeRasterPair (tr : RtofsTransforms) (crop : Bool) :
    ArrayExtent × GridTransform :=
  (rtofsDataExtent crop,
   if crop then tr.studyAreaTransform else tr.globalGridTransform)

/-- The class-level state of `HFR_Range`: the class attribute
`HFR_Range.grid_transform`, initialized to `None` at class creation
(src/dataset/hfr.py line 34). -/
structure HfrClassState where
  classGridTransform : Option GridTransform
deriving DecidableEq

/-- The transform-related attributes one `HFR_Range.__init__` call leaves on
the new instance, plus whether this construction recomputed the transform
from the coordinate arrays. -/
structure HfrInstanceAttrs where
  instGridTransform : Option GridTransform
  recomputed : Bool
deriving DecidableEq

/-- Embeds the transform-cache fragment of `HFR_Range.__init__`
(src/dataset/hfr.py lines 86-95): the guard tests the class attribute
`HFR_Range.grid_transform`, but the computed transform is assigned to
`self.grid_transform`, which creates an instance attribute; the class
attribute itself is never written anywhere in the source. -/
def hfrInitTransform (computed : GridTransform) (cls : HfrClassState) :
    HfrClassState × HfrInstanceAttrs :=
  if cls.classGridTransform = none then
    (cls, ⟨some computed, true⟩)
  else
    (cls, ⟨none, false⟩)

/-- Constructs `n` successive `HFR_Range` instances against the shared class
state, counting how many of them recomputed the grid transform. -/
def hfrConstructMany (computed : GridTransform) (cls : HfrClassState) :
    Nat → HfrClassState × Nat
  | 0 => (cls, 0)
  | n + 1 =>
    let stepped := hfrInitTransform computed cls
    let rest := hfrConstructMany computed stepped.1 n
    (rest.1, (if stepped.2.recomputed then 1 else 0) + rest.2)

theorem hourRange_mem_bounds {s e t : Nat} (h : t ∈ hourRange s e) :
    s ≤ t ∧ t ≤ e ∧ (t - s) % 60 = 0 := by
  unfold hourRange at h
  by_cases hse : s ≤ e
  · rw [if_pos hse] at h
    simp only [List.mem_map, List.mem_range] at h
    obtain ⟨k, hk, rfl⟩ := h
    refine ⟨by omega, by omega, by omega⟩
  · rw [if_neg hse] at h
    exact absurd h (List.not_mem_nil t)

theorem get_datetime_indices_eq (datetimes : List Nat) (s e : Nat) :
    get_datetime_indices datetimes s e =
      (if ((List.range datetimes.length).filter
          (fun i => decide (datetimes.getD i 0 ∈
            hourRange (roundToHour s) (roundToHour e)))).length = 0
       then none
       else some ((List.range datetimes.length).filter
          (fun i => decide (datetimes.getD i 0 ∈
            hourRange (roundToHour s) (roundToHour e))))) := rfl

/-- C1: `HFR_Range.get_datetime_indices` returns only indices whose dataset
time-axis timestamps are exact hourly matches within the interval obtained by
rounding both endpoints to the nearest hour (each matched timestamp lies
between the rounded endpoints, on an hourly boundary relative to them), and
it returns the no-data signal `none` exactly when no axis timestamp matches
any enumerated hour — never a nearest-match index or a default value. -/
theorem c1_get_datetime_indices_exact_hourly (datetimes : List Nat) (s e : Nat) :
    (∀ idxs, get_datetime_indices datetimes s e = some idxs →
      ∀ i ∈ idxs, i < datetimes.length ∧
        datetimes.getD i 0 ∈ hourRange (roundToHour s) (roundToHour e) ∧
        roundToHour s ≤ datetimes.getD i 0 ∧
        datetimes.getD i 0 ≤ roundToHour e ∧
        (datetimes.getD i 0 - roundToHour s) % 60 = 0) ∧
    (get_datetime_indices datetimes s e = none ↔
      ∀ i < datetimes.length,
        datetimes.getD i 0 ∉ hourRange (roundToHour s) (roundToHour e)) := by
  rw [get_datetime_indices_eq]
  constructor
  · intro idxs hsome i hi
    split at hsome
    · exact absurd hsome (by simp)
    · rw [Option.some_inj] at hsome
      subst hsome
      obtain ⟨hmem, hdec⟩ := List.mem_filter.mp hi
      have hlt := List.mem_range.mp hmem
      have hmem2 := of_decide_eq_true hdec
      obtain ⟨h1, h2, h3⟩ := hourRange_mem_bounds hmem2
      exact ⟨hlt, hmem2, h1, h2, h3⟩
  · split
    case isTrue hzero =>
      refine ⟨fun _ => ?_, fun _ => rfl⟩
      intro i hilt hmem
      rw [List.length_eq_zero] at hzero
      have : i ∈ (List.range datetimes.length).filter
          (fun i => decide (datetimes.getD i 0 ∈
            hourRange (roundToHour s) (roundToHour e))) :=
        List.mem_filter.mpr ⟨List.mem_range.mpr hilt, decide_eq_true hmem⟩
      rw [hzero] at this
      exact absurd this (List.not_mem_nil i)
    case isFalse hnz =>
      refine ⟨fun hc => absurd hc (by simp), fun hall => absurd ?_ hnz⟩
      rw [List.length_eq_zero, List.filter_eq_nil_iff]
      intro i hir
      have hilt := List.mem_range.mp hir
      simp only [decide_eq_true_eq]
      exact hall i hilt

theorem c1_get_datetime_indices_exact_hourly_witness :
    get_datetime_indices [0, 60, 125] 0 119 = some [0, 1] ∧
    (0 < [0, 60, 125].length ∧
      [0, 60, 125].getD 0 0 ∈ hourRange (roundToHour 0) (roundToHour 119)) ∧
    get_datetime_indices [30, 90] 0 119 = none := by
  refine ⟨by decide, ?_, ?_⟩
  · have h := (c1_get_datetime_indices_exact_hourly [0, 60, 125] 0 119).1
      [0, 1] (by decide) 0 (by decide)
    exact ⟨h.1, h.2.1⟩
  · exact (c1_get_datetime_indices_exact_hourly [30, 90] 0 119).2.mpr (by decide)

/-- C2: the direction selected by `RTOFS_Dataset` is forecast if and only if
the query time is at or after the model run time once both are truncated to
the daily cadence boundary, in both the `data` path and the `write_rasters`
path; the boundary case of a query time equal to the run time selects
forecast in both paths. -/
theorem c2_forecast_direction_boundary (R t : Nat) (hR : R % 1440 = 0) :
    (rtofsDataDirection R t = .forecast ↔ truncToDay R ≤ truncToDay t) ∧
    (rtofsWriteRastersDirection R t = .forecast ↔ truncToDay R ≤ truncToDay t) ∧
    rtofsDataDirection R R = .forecast ∧
    rtofsWriteRastersDirection R R = .forecast := by
  obtain ⟨b, rfl⟩ : ∃ b, R = b * 1440 := ⟨R / 1440, by omega⟩
  have htr : truncToDay (b * 1440) = b * 1440 := by unfold truncToDay; omega
  have hdata : ∀ u, rtofsDataDirection (b * 1440) u = .forecast ↔ b * 1440 ≤ u := by
    intro u
    by_cases h : b * 1440 ≤ u <;> simp [rtofsDataDirection, h]
  have hkey : ∀ a c : Nat,
      (0 ≤ Int.tdiv ((a : Int) * 1440 - (c : Int) * 1440) 1440 ↔
        c * 1440 ≤ a * 1440) := by
    intro a c
    have hfac : (a : Int) * 1440 - (c : Int) * 1440 = 1440 * ((a : Int) - (c : Int)) := by
      ring
    rw [hfac, Int.mul_tdiv_cancel_left _ (by norm_num)]
    omega
  have hwrite : ∀ u, rtofsWriteRastersDirection (b * 1440) u = .forecast ↔
      b * 1440 ≤ truncToDay u := by
    intro u
    simp only [rtofsWriteRastersDirection, truncToDay]
    have hcast : ∀ n : Nat, ((n * 1440 : Nat) : Int) = (n : Int) * 1440 := by
      intro n; push_cast; ring
    simp only [hcast]
    by_cases h : 0 ≤ Int.tdiv (((u / 1440 : Nat) : Int) * 1440 - (b : Int) * 1440) 1440
    · rw [if_pos h]
      simp only [true_iff]
      exact (hkey (u / 1440) b).mp h
    · rw [if_neg h]
      constructor
      · intro hc; exact absurd hc (by simp)
      · intro hle; exact absurd ((hkey (u / 1440) b).mpr hle) h
  refine ⟨?_, ?_, (hdata (b * 1440)).mpr le_rfl, (hwrite (b * 1440)).mpr ?_⟩
  · rw [hdata t, htr]
    constructor
    · intro h; unfold truncToDay; omega
    · intro h
      have : b * 1440 ≤ truncToDay t := h
      unfold truncToDay at this
      omega
  · rw [hwrite t, htr]
  · rw [htr]

theorem c2_forecast_direction_boundary_witness :
    (1440 : Nat) % 1440 = 0 ∧
    rtofsDataDirection 1440 1440 = .forecast ∧
    rtofsWriteRastersDirection 1440 1440 = .forecast ∧
    (rtofsDataDirection 1440 2000 = .forecast ↔
      truncToDay 1440 ≤ truncToDay 2000) := by
  have h := c2_forecast_direction_boundary 1440 2000 (by decide)
  have h2 := c2_forecast_direction_boundary 1440 1440 (by decide)
  exact ⟨by decide, h2.2.2.1, h2.2.2.2, h.1⟩

theorem arctan2_zero_one : arctan2 0 1 = 0 := by
  norm_num [arctan2]

theorem arctan2_one_zero : arctan2 1 0 = Real.pi / 2 := by
  norm_num [arctan2]

/-- C3: for non-missing component cells the derived direction equals
`(atan2(Ux, Uy) + π) × (180/π)` — with `Ux` as the first `atan2` argument —
and the derived magnitude equals `sqrt(Ux² + Uy²)`; in particular `Ux = 0,
Uy = 1` gives direction 180° and magnitude 1, and `Ux = 1, Uy = 0` gives
direction 270° and magnitude 1. -/
theorem c3_vector_derivation (ux uy : ℝ) :
    dirCell (some ux) (some uy)
      = some ((arctan2 ux uy + Real.pi) * (180 / Real.pi)) ∧
    magCell (some ux) (some uy) = some (Real.sqrt (ux ^ 2 + uy ^ 2)) ∧
    dirCell (some 0) (some 1) = some 180 ∧
    magCell (some 0) (some 1) = some 1 ∧
    dirCell (some 1) (some 0) = some 270 ∧
    magCell (some 1) (some 0) = some 1 := by
  have hpi := Real.pi_ne_zero
  refine ⟨rfl, ?_, ?_, ?_, ?_, ?_⟩
  · simp only [magCell, fUn, fBin, Option.some_inj]
    rw [← pow_two, ← pow_two]
  · simp only [dirCell, fBin, arctan2_zero_one, Option.some_inj, zero_add]
    field_simp
  · simp only [magCell, fUn, fBin, Option.some_inj]
    norm_num [Real.sqrt_one]
  · simp only [dirCell, fBin, arctan2_one_zero, Option.some_inj]
    field_simp
    ring_nf
    rw [mul_comm Real.pi Real.pi⁻¹, inv_mul_cancel₀ hpi, one_mul]
  · simp only [magCell, fUn, fBin, Option.some_inj]
    norm_num [Real.sqrt_one]

/-- C9: a missing value (NaN, modelled as `none`) in either component cell
propagates to a missing value in both the derived direction cell and the
derived magnitude cell; no fabricated numeric value is produced. -/
theorem c9_missing_value_propagates (u v : FloatCell)
    (h : u = none ∨ v = none) :
    dirCell u v = none ∧ magCell u v = none := by
  rcases h with rfl | rfl
  · cases v <;> simp [dirCell, magCell, fBin, fUn]
  · cases u <;> simp [dirCell, magCell, fBin, fUn]

theorem c9_missing_value_propagates_witness :
    dirCell none (some 1) = none ∧ magCell none (some 1) = none :=
  c9_missing_value_propagates none (some 1) (Or.inl rfl)

/-- C5 counterexample: with the driver list `["Bogus", "GTiff"]`, the write
loop produces no file at all for the valid `GTiff` driver — the unrecognized
driver makes `rasterio.open` raise inside a loop that has no exception
handling, so the remaining drivers are never attempted.  This refutes the
claim that a failure on one driver does not prevent files from being produced
for the remaining valid drivers. -/
theorem c5_invalid_driver_aborts_loop :
    driverExtension "GTiff" = some "tiff" ∧
    (writeDriverLoop "hfr" "u" "" ["Bogus", "GTiff"]).1 = [] ∧
    (writeDriverLoop "hfr" "u" "" ["Bogus", "GTiff"]).2 = false ∧
    rasterFilename "hfr" "u" "" "tiff" ∉
      (writeDriverLoop "hfr" "u" "" ["Bogus", "GTiff"]).1 := by
  decide

/-- C5 (amended): each recognized (variable, driver) pair produces its own
independent output file — when every driver in the list is recognized, the
loop completes and writes exactly one file per driver; a failure (an
unrecognized driver name) aborts the loop, so only the drivers before the
failure produce files. -/
theorem c5_one_file_per_valid_driver (pre varName suf : String)
    (drivers : List String)
    (hvalid : ∀ d ∈ drivers, (driverExtension d).isSome = true) :
    (writeDriverLoop pre varName suf drivers).1 =
      drivers.map (fun d =>
        rasterFilename pre varName suf ((driverExtension d).getD "")) ∧
    (writeDriverLoop pre varName suf drivers).2 = true := by
  induction drivers with
  | nil => exact ⟨rfl, rfl⟩
  | cons d rest ih =>
    have hd := hvalid d (List.mem_cons_self d rest)
    obtain ⟨ext, hext⟩ := Option.isSome_iff_exists.mp hd
    have hrest := ih (fun x hx => hvalid x (List.mem_cons_of_mem d hx))
    simp only [writeDriverLoop, hext, List.map_cons]
    exact ⟨by simp [hrest.1, hext], hrest.2⟩

theorem c5_one_file_per_valid_driver_witness :
    (writeDriverLoop "hfr" "u" "" ["GTiff", "GPKG"]).1 =
      [rasterFilename "hfr" "u" "" "tiff", rasterFilename "hfr" "u" "" "gpkg"] ∧
    (writeDriverLoop "hfr" "u" "" ["GTiff", "GPKG"]).2 = true := by
  have h := c5_one_file_per_valid_driver "hfr" "u" "" ["GTiff", "GPKG"]
    (by decide)
  refine ⟨?_, h.2⟩
  rw [h.1]
  decide

theorem collectMeans_lookup (cells : String → Nat → ℚ) (idxs : List Nat) :
    ∀ (order : List String) (acc : String → Option ℚ) (v : String),
      order.foldl
        (fun acc w => Function.update acc w (some (seqMean (cells w) idxs)))
        acc v
        = if v ∈ order then some (seqMean (cells v) idxs) else acc v := by
  intro order
  induction order with
  | nil => intro acc v; simp
  | cons a l ih =>
    intro acc v
    simp only [List.foldl_cons]
    rw [ih]
    by_cases hv : v ∈ l
    · simp [hv]
    · by_cases hva : v = a
      · subst hva
        simp [hv, Function.update_same]
      · simp [hv, hva, Function.update_noteq hva]

/-- C6: concurrent per-variable averaging is deterministic — for every
completion order (modelled as a permutation of the variable list), the
collected variable-to-mean mapping is the same function as for the
sequential order, and each requested variable is mapped to exactly the
arithmetic mean of its slices over the time axis. -/
theorem c6_concurrent_average_order_independent (cells : String → Nat → ℚ)
    (idxs : List Nat) (vars order : List String) (hperm : order.Perm vars)
    (v : String) :
    collectMeans cells idxs order v = collectMeans cells idxs vars v ∧
    (v ∈ vars →
      collectMeans cells idxs order v = some (seqMean (cells v) idxs)) := by
  unfold collectMeans
  rw [collectMeans_lookup, collectMeans_lookup]
  have hmem : v ∈ order ↔ v ∈ vars := hperm.mem_iff
  constructor
  · by_cases hv : v ∈ vars
    · rw [if_pos (hmem.mpr hv), if_pos hv]
    · rw [if_neg (fun hc => hv (hmem.mp hc)), if_neg hv]
  · intro hv
    rw [if_pos (hmem.mpr hv)]

theorem c6_concurrent_average_order_independent_witness :
    collectMeans (fun _ t => (t : ℚ)) [0, 1] ["v", "u"] "u" = some (1 / 2) ∧
    collectMeans (fun _ t => (t : ℚ)) [0, 1] ["u", "v"] "u" = some (1 / 2) := by
  have h := c6_concurrent_average_order_independent (fun _ t => (t : ℚ))
    [0, 1] ["u", "v"] ["v", "u"] (by decide) "u"
  have hmean : seqMean (fun t => (t : ℚ)) [0, 1] = 1 / 2 := by
    norm_num [seqMean]
  refine ⟨?_, ?_⟩
  · rw [h.2 (by decide), hmean]
  · rw [← h.1, h.2 (by decide), hmean]

/-- C7 counterexample: the claim that a `data` request for an unsupported
variable name always fails fast with `ValueError` is false.  A dataset can be
constructed successfully with only a nowcast handle open; a query at the
model run time then selects the forecast direction, whose handle dictionary
is empty, and `data` returns the no-data signal `None` without ever
validating the variable name. -/
theorem c7_invalid_variable_not_always_valueerror :
    rtofsInit "2ds" 0
        (fun d n => d == ForecastDirection.nowcast && n == "prog")
      = ConstructOutcome.ok ⟨"2ds", 0, ["prog"], []⟩ ∧
    rtofsData ⟨"2ds", 0, ["prog"], []⟩ "bogus" 0 = DataOutcome.noneReturned ∧
    DataOutcome.noneReturned ≠ DataOutcome.valueErrorVariable := by
  decide

/-- C7 (amended): construction raises the no-data condition exactly when no
dataset handle could be opened for any direction; and a `data` request for a
variable name outside the supported set raises `ValueError` — an outcome
distinct from the no-data condition — provided the selected direction has at
least one open handle, while a direction with no open handles makes `data`
return the no-data signal `None` without validating the variable name. -/
theorem c7_nodata_and_invalid_argument (source : String) (modelDate : Nat)
    (opens : ForecastDirection → String → Bool) :
    (rtofsInit source modelDate opens = ConstructOutcome.noDataError ↔
      ∀ d n, n ∈ datasetStructureNames source d → opens d n = false) ∧
    (∀ st varName t,
      rtofsInit source modelDate opens = ConstructOutcome.ok st →
      varName ∉ dataVariableNames →
      (0 < (rtofsHandles st (rtofsDataDirection st.modelDatetime t)).length →
        rtofsData st varName t = DataOutcome.valueErrorVariable) ∧
      ((rtofsHandles st (rtofsDataDirection st.modelDatetime t)).length = 0 →
        rtofsData st varName t = DataOutcome.noneReturned)) ∧
    DataOutcome.valueErrorVariable ≠ DataOutcome.noneReturned := by
  refine ⟨?_, ?_, by simp⟩
  · simp only [rtofsInit]
    split
    case isTrue hc =>
      constructor
      · intro h; exact absurd h (by simp)
      · intro hall
        exfalso
        rw [List.filter_eq_nil_iff.mpr
            (fun n hn => by simp [hall ForecastDirection.nowcast n hn]),
          List.filter_eq_nil_iff.mpr
            (fun n hn => by simp [hall ForecastDirection.forecast n hn])] at hc
        simp at hc
    case isFalse hc =>
      constructor
      · intro _ d n hn
        by_cases ho : opens d n = true
        · exfalso
          apply hc
          cases d
          · have : n ∈ (datasetStructureNames source .nowcast).filter
                (opens .nowcast) := List.mem_filter.mpr ⟨hn, ho⟩
            have := List.length_pos.mpr (List.ne_nil_of_mem this)
            omega
          · have : n ∈ (datasetStructureNames source .forecast).filter
                (opens .forecast) := List.mem_filter.mpr ⟨hn, ho⟩
            have := List.length_pos.mpr (List.ne_nil_of_mem this)
            omega
        · exact Bool.not_eq_true _ ▸ Bool.eq_false_iff.mpr
            (fun hcontra => ho hcontra)
      · intro _; rfl
  · intro st varName t _ hvar
    unfold rtofsData
    have hdirmem : rtofsDataDirection st.modelDatetime t ∈
        [ForecastDirection.nowcast, ForecastDirection.forecast] := by
      cases h : rtofsDataDirection st.modelDatetime t <;> simp
    rw [if_pos hdirmem]
    constructor
    · intro hl
      rw [if_pos hl, if_neg hvar]
    · intro hl
      rw [if_neg (by omega)]

theorem c7_nodata_and_invalid_argument_witness :
    rtofsData ⟨"2ds", 0, ["prog", "diag"], ["prog", "diag"]⟩ "bogus" 0
      = DataOutcome.valueErrorVariable ∧
    rtofsInit "2ds" 5 (fun _ _ => false) = ConstructOutcome.noDataError := by
  constructor
  · exact ((c7_nodata_and_invalid_argument "2ds" 0 (fun _ _ => true)).2.1
      ⟨"2ds", 0, ["prog", "diag"], ["prog", "diag"]⟩ "bogus" 0
      (by decide) (by decide)).1 (by decide)
  · exact (c7_nodata_and_invalid_argument "2ds" 5 (fun _ _ => false)).1.mpr
      (fun d n _ => rfl)

/-- C8: every exported field is paired with the transform matching the
cropping mode that produced it — in both `RTOFS_Dataset.write_rasters` and
`RTOFS_Dataset.write_raster`, a crop request attaches the study-area
transform and a global request attaches the global grid transform, so a
cropped array is never paired with the global transform and vice versa. -/
theorem c8_transform_matches_crop_mode (tr : RtofsTransforms) (crop : Bool) :
    ((writeRastersPair tr crop).1 = ArrayExtent.croppedToStudyArea ↔
      crop = true) ∧
    ((writeRastersPair tr crop).1 = ArrayExtent.croppedToStudyArea →
      (writeRastersPair tr crop).2 = tr.studyAreaTransform) ∧
    ((writeRastersPair tr crop).1 = ArrayExtent.globalExtent →
      (writeRastersPair tr crop).2 = tr.globalGridTransform) ∧
    ((writeRasterPair tr crop).1 = ArrayExtent.croppedToStudyArea ↔
      crop = true) ∧
    ((writeRasterPair tr crop).1 = ArrayExtent.croppedToStudyArea →
      (writeRasterPair tr crop).2 = tr.studyAreaTransform) ∧
    ((writeRasterPair tr crop).1 = ArrayExtent.globalExtent →
      (writeRasterPair tr crop).2 = tr.globalGridTransform) := by
  cases crop <;>
    simp [writeRastersPair, writeRasterPair, rtofsDataExtent,
      writeRastersTransform]

theorem c8_transform_matches_crop_mode_witness :
    (writeRastersPair ⟨⟨0, 0, 1, 1⟩, ⟨2, 2, 3, 3⟩⟩ true).2
      = GridTransform.mk 0 0 1 1 ∧
    (writeRasterPair ⟨⟨0, 0, 1, 1⟩, ⟨2, 2, 3, 3⟩⟩ false).2
      = GridTransform.mk 2 2 3 3 := by
  constructor
  · exact (c8_transform_matches_crop_mode ⟨⟨0, 0, 1, 1⟩, ⟨2, 2, 3, 3⟩⟩
      true).2.1 (by decide)
  · exact (c8_transform_matches_crop_mode ⟨⟨0, 0, 1, 1⟩, ⟨2, 2, 3, 3⟩⟩
      false).2.2.2.2.2 (by decide)

/-- C10: the claimed cross-instance transform cache never takes effect.
Constructing two successive `HFR_Range` instances recomputes the grid
transform both times, and the class attribute `HFR_Range.grid_transform` is
still `None` afterwards: the guard in `__init__` tests the class attribute,
but the computed transform is assigned to `self.grid_transform`, an instance
attribute, so the cache the claim describes is never populated. -/
theorem c10_transform_cache_never_populated :
    (hfrConstructMany ⟨0, 0, 1, 1⟩ ⟨none⟩ 2).2 = 2 ∧
    (hfrConstructMany ⟨0, 0, 1, 1⟩ ⟨none⟩ 2).1.classGridTransform = none := by
  decide

theorem foldl_nearest_mem (q : ℚ × ℚ) :
    ∀ (ps : List (ℚ × ℚ)) (b : ℚ × ℚ),
      ps.foldl (fun best p => if sqDist p q < sqDist best q then p else best) b
          = b ∨
        ps.foldl (fun best p => if sqDist p q < sqDist best q then p else best)
          b ∈ ps := by
  intro ps
  induction ps with
  | nil => intro b; left; rfl
  | cons a l ih =>
    intro b
    simp only [List.foldl_cons]
    rcases ih (if sqDist a q < sqDist b q then a else b) with h | h
    · rw [h]
      by_cases hc : sqDist a q < sqDist b q
      · right; rw [if_pos hc]; exact List.mem_cons_self a l
      · left; rw [if_neg hc]
    · right; exact List.mem_cons_of_mem a h

theorem foldl_nearest_le (q : ℚ × ℚ) :
    ∀ (ps : List (ℚ × ℚ)) (b : ℚ × ℚ),
      sqDist
          (ps.foldl (fun best p => if sqDist p q < sqDist best q then p
            else best) b) q ≤ sqDist b q ∧
      ∀ p ∈ ps,
        sqDist
          (ps.foldl (fun best p => if sqDist p q < sqDist best q then p
            else best) b) q ≤ sqDist p q := by
  intro ps
  induction ps with
  | nil => intro b; exact ⟨le_refl _, by simp⟩
  | cons a l ih =>
    intro b
    simp only [List.foldl_cons]
    obtain ⟨h1, h2⟩ := ih (if sqDist a q < sqDist b q then a else b)
    by_cases hc : sqDist a q < sqDist b q
    · rw [if_pos hc] at h1 h2 ⊢
      refine ⟨le_trans h1 (le_of_lt hc), ?_⟩
      intro p hp
      rcases List.mem_cons.mp hp with rfl | hp
      · exact h1
      · exact h2 p hp
    · rw [if_neg hc] at h1 h2 ⊢
      refine ⟨h1, ?_⟩
      intro p hp
      rcases List.mem_cons.mp hp with rfl | hp
      · exact le_trans h1 (not_lt.mp hc)
      · exact h2 p hp

theorem nearestPoint_mem {ps : List (ℚ × ℚ)} (h : ps ≠ []) (q : ℚ × ℚ) :
    nearestPoint ps q ∈ ps := by
  unfold nearestPoint
  rcases foldl_nearest_mem q ps (ps.headD (0, 0)) with heq | hm
  · rw [heq]
    cases ps with
    | nil => exact absurd rfl h
    | cons a l => simp
  · exact hm

theorem nearestPoint_minimizes (ps : List (ℚ × ℚ)) (q p : ℚ × ℚ)
    (hp : p ∈ ps) : sqDist (nearestPoint ps q) q ≤ sqDist p q :=
  (foldl_nearest_le q ps (ps.headD (0, 0))).2 p hp

theorem diffs_cons_cons (x y : ℚ) (rest : List ℚ) :
    diffs (x :: y :: rest) = (y - x) :: diffs (y :: rest) := rfl

theorem diffs_map_range' (start step : ℚ) :
    ∀ (n a : Nat),
      diffs ((List.range' a n).map (fun k : Nat => start + (k : ℚ) * step)) =
        List.replicate (n - 1) step := by
  intro n
  induction n with
  | zero => intro a; rfl
  | succ m ih =>
    intro a
    cases m with
    | zero => rfl
    | succ k =>
      rw [List.range'_succ, List.range'_succ, List.map_cons, List.map_cons,
        diffs_cons_cons]
      have ih2 := ih (a + 1)
      rw [List.range'_succ, List.map_cons] at ih2
      rw [ih2]
      have hstep : (start + ((a + 1 : Nat) : ℚ) * step) -
          (start + ((a : Nat) : ℚ) * step) = step := by
        push_cast
        ring
      rw [hstep]
      rfl

theorem diffs_arange (s e st : ℚ) :
    diffs (arange s e st) = List.replicate (arangeLen s e st - 1) st := by
  unfold arange
  rw [List.range_eq_range']
  exact diffs_map_range' s st (arangeLen s e st) 0

theorem foldl_max_replicate (x : ℚ) :
    ∀ k : Nat, (List.replicate k x).foldl max x = x := by
  intro k
  induction k with
  | zero => rfl
  | succ m ih =>
    rw [List.replicate_succ, List.foldl_cons, max_self]
    exact ih

theorem maxList_replicate_succ (x : ℚ) (k : Nat) :
    maxList (List.replicate (k + 1) x) = x := by
  unfold maxList
  rw [List.replicate_succ]
  simp only [List.headD_cons, List.foldl_cons, max_self]
  exact foldl_max_replicate x k

theorem foldl_min_eq_init (b : ℚ) :
    ∀ xs : List ℚ, (∀ p ∈ xs, b ≤ p) → xs.foldl min b = b := by
  intro xs
  induction xs with
  | nil => intro _; rfl
  | cons a l ih =>
    intro h
    simp only [List.foldl_cons]
    rw [min_eq_left (h a (List.mem_cons_self a l))]
    exact ih (fun p hp => h p (List.mem_cons_of_mem a hp))

theorem foldl_max_ge (xs : List ℚ) :
    ∀ b : ℚ, b ≤ xs.foldl max b ∧ ∀ p ∈ xs, p ≤ xs.foldl max b := by
  induction xs with
  | nil => intro b; exact ⟨le_refl _, by simp⟩
  | cons a l ih =>
    intro b
    simp only [List.foldl_cons]
    obtain ⟨h1, h2⟩ := ih (max b a)
    refine ⟨le_trans (le_max_left b a) h1, ?_⟩
    intro p hp
    rcases List.mem_cons.mp hp with rfl | hp
    · exact le_trans (le_max_right b p) h1
    · exact h2 p hp

theorem foldl_max_mem (xs : List ℚ) :
    ∀ b : ℚ, xs.foldl max b = b ∨ xs.foldl max b ∈ xs := by
  induction xs with
  | nil => intro b; left; rfl
  | cons a l ih =>
    intro b
    simp only [List.foldl_cons]
    rcases ih (max b a) with h | h
    · rw [h]
      rcases max_choice b a with hm | hm
      · left; rw [hm]
      · right; rw [hm]; exact List.mem_cons_self a l
    · right; exact List.mem_cons_of_mem a h

theorem maxList_mem {xs : List ℚ} (h : xs ≠ []) : maxList xs ∈ xs := by
  unfold maxList
  rcases foldl_max_mem xs (xs.headD 0) with heq | hm
  · rw [heq]
    cases xs with
    | nil => exact absurd rfl h
    | cons a l => simp
  · exact hm

theorem maxList_ge (xs : List ℚ) (p : ℚ) (hp : p ∈ xs) : p ≤ maxList xs :=
  (foldl_max_ge xs (xs.headD 0)).2 p hp

theorem arange_length (s e st : ℚ) :
    (arange s e st).length = arangeLen s e st := by
  simp [arange]

theorem arangeLen_pos_step {s e st : ℚ} (h : 0 < arangeLen s e st) :
    0 < st := by
  unfold arangeLen at h
  by_cases hst : 0 < st
  · exact hst
  · rw [if_neg hst] at h
    omega

theorem arange_headD {s e st : ℚ} (h : 0 < arangeLen s e st) :
    (arange s e st).headD 0 = s := by
  unfold arange
  rcases Nat.exists_eq_add_of_lt h with ⟨m, hm⟩
  rw [show arangeLen s e st = m + 1 by omega, List.range_succ_eq_map,
    List.map_cons]
  simp

theorem arange_mem_ge {s e st : ℚ} (hst : 0 < st) :
    ∀ p ∈ arange s e st, s ≤ p := by
  intro p hp
  unfold arange at hp
  simp only [List.mem_map, List.mem_range] at hp
  obtain ⟨k, _, rfl⟩ := hp
  have : (0 : ℚ) ≤ (k : ℚ) * st :=
    mul_nonneg (by positivity) (le_of_lt hst)
  linarith

theorem minList_arange {s e st : ℚ} (h : 0 < arangeLen s e st) :
    minList (arange s e st) = s := by
  unfold minList
  rw [arange_headD h]
  exact foldl_min_eq_init s (arange s e st)
    (arange_mem_ge (arangeLen_pos_step h))

theorem ratCeil_eq_ceil (q : ℚ) : ratCeil q = ⌈q⌉ := by
  unfold ratCeil
  rw [← Rat.floor_def, Int.floor_neg, neg_neg]

theorem arange_getD_of_lt (s e st : ℚ) (i : Nat) (h : i < arangeLen s e st) :
    (arange s e st).getD i 0 = s + (i : ℚ) * st := by
  unfold arange
  rw [List.getD_eq_getElem?_getD, List.getElem?_map, List.getElem?_range h]
  rfl

theorem arangeLen_zero_nat_one (n : Nat) : arangeLen 0 (n : ℚ) 1 = n := by
  rw [arangeLen, if_pos one_pos, ratCeil_eq_ceil]
  have h : ((n : ℚ) - 0) / 1 = (n : ℚ) := by norm_num
  rw [h, Int.ceil_natCast]
  exact Int.toNat_natCast n

theorem meanDiff_pair (x y : ℚ) : meanDiff [x, y] = y - x := by
  have h : diffs [x, y] = [y - x] := rfl
  rw [meanDiff, h]
  norm_num

theorem meanCellLength_unit_pair (w n e s : ℚ) :
    meanCellLength ⟨[0, 1], [0, 1], w, n, e, s⟩ = 1 := by
  have h : meanDiff [(0 : ℚ), 1] = 1 := by rw [meanDiff_pair]; norm_num
  simp only [meanCellLength, cellSize]
  rw [h]
  norm_num

/-- C4 counterexample: the claim that every output cell lying outside the
source's convex extent holds the configured fill value is false.  Scipy's
`griddata` ignores `fill_value` for `method='nearest'`.  With source points
spanning longitudes 0 to 1 but dataset bounds extending east to longitude 10,
the output cell in column 9 sits at longitude 9, strictly east of every
source point — outside the source's convex extent — yet holds the nearest
source value 7 rather than the fill value -9999. -/
theorem c4_fill_value_not_applied_outside_extent :
    (outputLons ⟨[0, 1], [0, 1], 0, 1, 10, 0⟩).getD 9 0 = 9 ∧
    (∀ p ∈ gridPoints ⟨[0, 1], [0, 1], 0, 1, 10, 0⟩,
      p.1 < (outputLons ⟨[0, 1], [0, 1], 0, 1, 10, 0⟩).getD 9 0) ∧
    aaigridValue ⟨[0, 1], [0, 1], 0, 1, 10, 0⟩ (fun _ => 7) 0 9 = 7 ∧
    (7 : ℚ) ≠ -9999 := by
  have hcell := meanCellLength_unit_pair 0 1 10 0
  have hlen : arangeLen 0 10 1 = 10 := by
    have h := arangeLen_zero_nat_one 10
    simpa using h
  have hout : (outputLons ⟨[0, 1], [0, 1], 0, 1, 10, 0⟩).getD 9 0 = 9 := by
    show (arange (0 : ℚ) 10
      (meanCellLength ⟨[0, 1], [0, 1], 0, 1, 10, 0⟩)).getD 9 0 = 9
    rw [hcell, arange_getD_of_lt 0 10 1 9 (by rw [hlen]; norm_num)]
    norm_num
  refine ⟨hout, ?_, rfl, by norm_num⟩
  intro p hp
  rw [hout]
  have hgp : gridPoints ⟨[0, 1], [0, 1], 0, 1, 10, 0⟩ =
      [((0 : ℚ), (0 : ℚ)), (1, 0), (0, 1), (1, 1)] := rfl
  rw [hgp] at hp
  simp only [List.mem_cons, List.not_mem_nil, or_false] at hp
  rcases hp with rfl | rfl | rfl | rfl <;> norm_num

/-- C4 (amended): for the AAIGrid export the output grid has uniform square
cells whose size equals the minimum of the x and y mean cell spacings of the
full, uncropped source grid; the written transform is anchored at the
regridded grid's origin (its west edge is the dataset's western bound and its
north edge is the greatest output latitude); and the field is regridded by
nearest-neighbour interpolation — every output cell, inside or outside the
source's convex extent, holds the value of a nearest source point; the
configured fill value is not applied, because scipy's `griddata` ignores
`fill_value` for the nearest method. -/
theorem c4_aaigrid_uniform_square_nearest (g : HfrGrid) (val : ℚ × ℚ → ℚ)
    (hlen : 2 ≤ (outputLons g).length) (hlat : outputLats g ≠ [])
    (hpts : gridPoints g ≠ []) :
    (aaigridTransform g).xsize = (aaigridTransform g).ysize ∧
    (aaigridTransform g).xsize = meanCellLength g ∧
    meanCellLength g = min (|meanDiff g.lons|) (|meanDiff g.lats|) ∧
    (aaigridTransform g).west = g.boundsWest ∧
    ((aaigridTransform g).north ∈ outputLats g ∧
      ∀ y ∈ outputLats g, y ≤ (aaigridTransform g).north) ∧
    ∀ r c, ∃ p ∈ gridPoints g,
      aaigridValue g val r c = val p ∧
      ∀ q ∈ gridPoints g,
        sqDist p ((outputLons g).getD c 0, (outputLats g).getD r 0) ≤
          sqDist q ((outputLons g).getD c 0, (outputLats g).getD r 0) := by
  have hlen2 : 2 ≤ arangeLen g.boundsWest g.boundsEast (meanCellLength g) := by
    rw [← arange_length]
    exact hlen
  refine ⟨rfl, ?_, rfl, ?_, ⟨maxList_mem hlat, fun y hy => maxList_ge _ y hy⟩,
    ?_⟩
  · show maxList (diffs (outputLons g)) = meanCellLength g
    unfold outputLons
    rw [diffs_arange]
    obtain ⟨k, hk⟩ : ∃ k,
        arangeLen g.boundsWest g.boundsEast (meanCellLength g) - 1 = k + 1 :=
      ⟨arangeLen g.boundsWest g.boundsEast (meanCellLength g) - 2, by omega⟩
    rw [hk]
    exact maxList_replicate_succ _ k
  · show minList (outputLons g) = g.boundsWest
    unfold outputLons
    exact minList_arange (by omega)
  · intro r c
    refine ⟨nearestPoint (gridPoints g)
        ((outputLons g).getD c 0, (outputLats g).getD r 0),
      nearestPoint_mem hpts _, rfl, ?_⟩
    intro q hq
    exact nearestPoint_minimizes _ _ q hq

theorem c4_aaigrid_uniform_square_nearest_witness :
    (aaigridTransform ⟨[0, 1], [0, 1], 0, 1, 2, 0⟩).xsize
        = (aaigridTransform ⟨[0, 1], [0, 1], 0, 1, 2, 0⟩).ysize ∧
    (aaigridTransform ⟨[0, 1], [0, 1], 0, 1, 2, 0⟩).xsize
        = meanCellLength ⟨[0, 1], [0, 1], 0, 1, 2, 0⟩ ∧
    (aaigridTransform ⟨[0, 1], [0, 1], 0, 1, 2, 0⟩).west = (0 : ℚ) := by
  have hcell := meanCellLength_unit_pair 0 1 2 0
  have hlen2 : arangeLen 0 2 1 = 2 := by
    have h := arangeLen_zero_nat_one 2
    simpa using h
  have hlen1 : arangeLen 0 1 1 = 1 := by
    have h := arangeLen_zero_nat_one 1
    simpa using h
  have hlons : 2 ≤ (outputLons ⟨[0, 1], [0, 1], 0, 1, 2, 0⟩).length := by
    show 2 ≤ (arange (0 : ℚ) 2
      (meanCellLength ⟨[0, 1], [0, 1], 0, 1, 2, 0⟩)).length
    rw [hcell, arange_length, hlen2]
  have hlats : outputLats ⟨[0, 1], [0, 1], 0, 1, 2, 0⟩ ≠ [] := by
    apply List.length_pos.mp
    show 0 < (arange (0 : ℚ) 1
      (meanCellLength ⟨[0, 1], [0, 1], 0, 1, 2, 0⟩)).length
    rw [hcell, arange_length, hlen1]
    norm_num
  have hpts : gridPoints ⟨[0, 1], [0, 1], 0, 1, 2, 0⟩ ≠ [] := by
    have hgp : gridPoints ⟨[0, 1], [0, 1], 0, 1, 2, 0⟩ =
        [((0 : ℚ), (0 : ℚ)), (1, 0), (0, 1), (1, 1)] := rfl
    rw [hgp]
    simp
  have h := c4_aaigrid_uniform_square_nearest ⟨[0, 1], [0, 1], 0, 1, 2, 0⟩
    (fun _ => 0) hlons hlats hpts
  exact ⟨h.1, h.2.1, h.2.2.2.1⟩

theorem c3_vector_derivation_witness :
    dirCell (some 0) (some 1) = some 180 ∧
    magCell (some 1) (some 0) = some 1 :=
  ⟨(c3_vector_derivation 0 1).2.2.1, (c3_vector_derivation 0 1).2.2.2.2.2⟩
